import Mathlib

/-!
Shallow embedding of the fishing-automation control core (`src/fisher.js`,
class `Fisher`): message reading, response classification, captcha
detection/handling, settle detection, cooldown gating, and the main loop's
state machine.  All times are in milliseconds (the JS code works in
`Date.now()` milliseconds); timelines are lists of entries, oldest first,
where an entry is `Option String` (`none` models a transient read failure
that `textContent().catch(() => '')` turns into the empty string).
-/

namespace Fisher

/-- A timeline of observed message entries, oldest first.  `none` is a
transient read failure; reading it yields the empty string. -/
abbrev Timeline : Type := List (Option String)

/-- `String.prototype.includes` on character lists: does `s` start with `p`? -/
def charsStartWith : List Char → List Char → Bool
  | [], _ => true
  | _ :: _, [] => false
  | p :: ps, c :: cs => p == c && charsStartWith ps cs

/-- Substring containment on character lists (`s.includes(p)` in JS). -/
def charsContain (p : List Char) : List Char → Bool
  | [] => charsStartWith p []
  | c :: cs => charsStartWith p (c :: cs) || charsContain p cs

/-- `msg.includes(pat)` from JS, on Lean strings. -/
def containsSub (pat s : String) : Bool :=
  charsContain pat.data s.data

/-- `String.prototype.toLowerCase` (ASCII is all that the phrases use). -/
def lowerStr (s : String) : String :=
  String.mk (s.data.map Char.toLower)

/-- JS regex `\s`: whitespace characters. -/
def isWsChar (c : Char) : Bool :=
  c == ' ' || c == '\t' || c == '\n' || c == '\r' || c == '\x0b' || c == '\x0c'

/-- Case-insensitive literal match of lowercase pattern `pat` at the head. -/
def ciStartWith (pat : String) (s : List Char) : Bool :=
  charsStartWith pat.data (s.map Char.toLower)

/-- The regex `captchaMsg.match(/Code:\s*(\S+)/i)` of `detectCaptcha`
(src/fisher.js line 135): the first capture group of the first match, or
`none` when the regex does not match.  At each start position: match
`Code:` case-insensitively, skip whitespace greedily, then require at
least one non-whitespace character and capture the maximal run. -/
def codeMatch : List Char → Option String
  | [] => none
  | c :: cs =>
    if ciStartWith "code:" (c :: cs) then
      let rest := ((c :: cs).drop 5).dropWhile isWsChar
      let cap := rest.takeWhile (fun ch => !isWsChar ch)
      if cap.isEmpty then codeMatch cs else some (String.mk cap)
    else codeMatch cs

/-- `getLastMessages(count)` (src/fisher.js lines 237-250): the last
`count` entries of the timeline, oldest first, failed reads as `""`. -/
def getLastMessages (count : Nat) (tl : Timeline) : List String :=
  ((List.drop (List.length tl - count) tl)).map (fun e => e.getD "")

/-- `messages[0] || ''` after `getLastMessages(1)`: the most recent entry
as text, or `""` when the timeline is empty or the read failed. -/
def lastMsgOf (tl : Timeline) : String :=
  (getLastMessages 1 tl).headD ""

/-- The `isVirtualFisherResponse` test inside `getLastMessage`
(src/fisher.js lines 211-218), case-sensitive as in the code. -/
def isVirtualFisherResponse (msg : String) : Bool :=
  containsSub "You caught" msg ||
  containsSub "You sold" msg ||
  containsSub "You bought" msg ||
  containsSub "Bait purchase" msg ||
  containsSub "You ran out of" msg ||
  containsSub "Anti-bot" msg

/-- `getLastMessage()` (src/fisher.js lines 203-232): busy-wait polling the
most recent entry until it looks like a Virtual Fisher response of length
> 10, falling back to whatever is there when the 3 s budget runs out.
`fuel` is the number of polls left before the timeout. -/
def getLastMessage : Nat → Timeline → String
  | 0, tl => lastMsgOf tl
  | fuel + 1, tl =>
    let msg := lastMsgOf tl
    if isVirtualFisherResponse msg && decide (msg.length > 10) then msg
    else getLastMessage fuel tl

/-- `determineNextAction()` (src/fisher.js lines 93-114) applied to an
already-read last message: priority decision on the lowercased text. -/
def determineNextAction (lastMsg : String) : String :=
  let msg := lowerStr lastMsg
  if containsSub "you ran out of" msg then "sell"
  else if containsSub "you sold" msg then "buy"
  else if containsSub "you bought" msg || containsSub "bait purchase" msg then "fish"
  else "fish"

/-- A detected captcha (`detectCaptcha`'s return object, src/fisher.js
lines 124-138): text captchas carry the extracted answer; both carry the
full matched message. -/
inductive Captcha where
  | text (answer fullMessage : String)
  | image (fullMessage : String)
deriving DecidableEq, Repr

/-- `detectCaptcha()` (src/fisher.js lines 124-138): scan the last 2
entries for the `anti-bot` marker (case-insensitive); on a hit, a
`Code:`-extractable answer means a text captcha, otherwise image. -/
def detectCaptcha (tl : Timeline) : Option Captcha :=
  let messages := getLastMessages 2 tl
  match messages.find? (fun m => containsSub "anti-bot" (lowerStr m)) with
  | none => none
  | some m =>
    match codeMatch m.data with
    | some code => some (Captcha.text code m)
    | none => some (Captcha.image m)

/-- `waitForCooldown()` (src/fisher.js lines 284-294) as the number of
milliseconds slept: a no-op when `lastFishResponseTime` is the unset
sentinel `0`; otherwise sleeps `cooldownMs - (now - lastFishResponseTime)`
when that remainder is positive (the code computes ms, then sleeps
`remaining / 1000` seconds, i.e. `remaining` ms). -/
def waitForCooldown (lastFishResponseTime now cooldownMs : Nat) : Nat :=
  if lastFishResponseTime = 0 then 0
  else
    let elapsed : Int := (now : Int) - (lastFishResponseTime : Int)
    let remaining : Int := (cooldownMs : Int) - elapsed
    if 0 < remaining then remaining.toNat else 0

/-- A command submitted to the transport (`sendCommand` /
`sendCommandWithParams`, src/fisher.js lines 299-323). -/
inductive Sent where
  | simple (cmd : String)
  | withParams (cmd params : String)
deriving DecidableEq, Repr

/-- Loop configuration: `config.cooldown * 1000` in ms and
`config.baitType`. -/
structure Config where
  cooldownMs : Nat
  baitType : String

/-- The `Fisher` object's mutable fields plus the loop-local `nextAction`
string (src/fisher.js lines 7-12 and 17-19). -/
structure LoopState where
  running : Bool
  lastFishResponseTime : Nat
  nextAction : String
deriving DecidableEq, Repr

/-- What one loop cycle observes from the environment: the settled
timeline it will read, the clock at the cooldown check, and the clock
right after the settle wait (`Date.now()` at src/fisher.js line 40). -/
structure CycleEnv where
  tl : Timeline
  cooldownNow : Nat
  responseTime : Nat

/-- `executeAction(action)` (src/fisher.js lines 74-88): the command the
switch sends, or the thrown `Unknown action` error on the default branch. -/
def executeAction (baitType action : String) : Except String Sent :=
  if action = "fish" then Except.ok (Sent.simple "/fish")
  else if action = "sell" then Except.ok (Sent.withParams "/sell" "all")
  else if action = "buy" then Except.ok (Sent.withParams "/buy" (baitType ++ " 50"))
  else Except.error ("Unknown action: " ++ action)

/-- The error message thrown on an image captcha (src/fisher.js line 166). -/
def imageCaptchaError : String :=
  "Image captcha detected - manual intervention required. Terminating."

/-- `handleCaptcha(captcha)` (src/fisher.js lines 143-167): a text captcha
sends `/verify <answer>` then sleeps 1 s; an image captcha throws. -/
def handleCaptcha : Captcha → Except String (List Sent × Nat)
  | Captcha.text answer _ => Except.ok ([Sent.withParams "/verify" answer], 1000)
  | Captcha.image _ => Except.error imageCaptchaError

/-- The observable outcome of one cycle body (src/fisher.js lines 24-51):
the state as mutated up to the point of a throw (if any), the commands
sent, the cooldown sleep performed, and the propagated error. -/
structure StepOut where
  state : LoopState
  cmds : List Sent
  cooldownWait : Nat
  err : Option String
deriving Repr

/-- One iteration of the `while (this.running)` body (src/fisher.js lines
24-51): cooldown gate only for `fish`; execute the pending action; after
settling, record `lastFishResponseTime` only for `fish`; detect and handle
a captcha (which may throw); classify the last message into the next
action.  Errors are rethrown by the `catch` (line 53-54), so they
propagate with the state as already mutated. -/
def step (cfg : Config) (s : LoopState) (env : CycleEnv) : StepOut :=
  let cw := if s.nextAction = "fish"
    then waitForCooldown s.lastFishResponseTime env.cooldownNow cfg.cooldownMs
    else 0
  match executeAction cfg.baitType s.nextAction with
  | Except.error e => { state := s, cmds := [], cooldownWait := cw, err := some e }
  | Except.ok cmd =>
    let s1 := if s.nextAction = "fish"
      then { s with lastFishResponseTime := env.responseTime }
      else s
    let after : Except String (List Sent) :=
      match detectCaptcha env.tl with
      | none => Except.ok []
      | some c =>
        match handleCaptcha c with
        | Except.ok (sends, _) => Except.ok sends
        | Except.error e => Except.error e
    match after with
    | Except.error e => { state := s1, cmds := [cmd], cooldownWait := cw, err := some e }
    | Except.ok sends =>
      { state := { s1 with nextAction := determineNextAction (lastMsgOf env.tl) }
        cmds := cmd :: sends
        cooldownWait := cw
        err := none }

/-- The `start()` loop (src/fisher.js lines 17-56) run over a finite list
of per-cycle environments: cycles run while `running` holds and no error
has been thrown; a thrown error stops the loop immediately (the catch
rethrows) with no further commands.  Returns the final state, all
commands sent in order, and the propagated error, if any. -/
def runLoop (cfg : Config) : List CycleEnv → LoopState → LoopState × List Sent × Option String
  | [], s => (s, [], none)
  | env :: rest, s =>
    if s.running then
      let o := step cfg s env
      match o.err with
      | some e => (o.state, o.cmds, some e)
      | none =>
        let (s', cmds', err') := runLoop cfg rest o.state
        (s', o.cmds ++ cmds', err')
    else (s, [], none)

/-- The fresh-start loop state: `running` set by `start()`, sentinel
response time, first action `fish` (src/fisher.js lines 10-19). -/
def initialState : LoopState :=
  { running := true, lastFishResponseTime := 0, nextAction := "fish" }

/-- `waitForMessagesSettled` (src/fisher.js lines 259-279) as a discrete
recursion.  `counts t` is `getMessageCount()` at `t` ms after entry;
state is (current time, `lastCount`, `lastChangeTime`); each iteration
sleeps 100 ms, reads the count, tracks increases, and returns `(t, true)`
once `settleMs` has passed since the last observed increase, or
`(t, false)` when the `timeoutMs` budget is exhausted.  `fuel` bounds the
number of iterations; `none` means the fuel ran out before either exit. -/
def settleAux (counts : Nat → Nat) (settleMs timeoutMs : Nat) :
    Nat → Nat → Nat → Nat → Option (Nat × Bool)
  | 0, t, _, _ =>
    if t < timeoutMs then none else some (t, false)
  | fuel + 1, t, lastCount, lastChange =>
    if t < timeoutMs then
      if lastCount < counts (t + 100) then
        if settleMs ≤ (t + 100) - (t + 100) then some (t + 100, true)
        else settleAux counts settleMs timeoutMs fuel (t + 100) (counts (t + 100)) (t + 100)
      else
        if settleMs ≤ (t + 100) - lastChange then some (t + 100, true)
        else settleAux counts settleMs timeoutMs fuel (t + 100) lastCount lastChange
    else some (t, false)

/-- `waitForMessagesSettled(previousCount, settleMs, timeoutMs)` entered
at time 0 with `lastCount = previousCount` and `lastChangeTime = 0`. -/
def waitForMessagesSettled (counts : Nat → Nat) (previousCount settleMs timeoutMs fuel : Nat) :
    Option (Nat × Bool) :=
  settleAux counts settleMs timeoutMs fuel 0 previousCount 0

/-! ## Supporting lemmas -/

/-- On a fixed timeline the busy-wait of `getLastMessage` is immaterial:
whatever the poll budget, it returns the most recent entry (or `""`). -/
theorem getLastMessage_eq (fuel : Nat) (tl : Timeline) :
    getLastMessage fuel tl = lastMsgOf tl := by
  induction fuel with
  | zero => rfl
  | succ n ih =>
    simp only [getLastMessage]
    split
    · rfl
    · exact ih

/-- The classifier only ever returns one of the three action strings. -/
theorem determineNextAction_mem (msg : String) :
    determineNextAction msg = "fish" ∨ determineNextAction msg = "sell" ∨
      determineNextAction msg = "buy" := by
  by_cases h1 : containsSub "you ran out of" (lowerStr msg) = true
  · right; left; simp [determineNextAction, h1]
  · by_cases h2 : containsSub "you sold" (lowerStr msg) = true
    · right; right; simp [determineNextAction, h1, h2]
    · by_cases h3 : (containsSub "you bought" (lowerStr msg)
          || containsSub "bait purchase" (lowerStr msg)) = true
      · left; simp [determineNextAction, h1, h2, h3]
      · left; simp [determineNextAction, h1, h2, h3]

/-- Invariant-carrying soundness of the settle recursion.  Entering
`settleAux` at time `t` with `lastCount` equal to the current entry count,
no growth since `lastChange`, and both clocks on the 100 ms poll grid:
the recursion returns; a settled return at `T` happened no earlier than
`settleMs` past `lastChange`, saw zero growth over the whole trailing
window `[T - settleMs, T]`, and postdates every observed increase by at
least `settleMs`; a timeout return happens at or after `timeoutMs`. -/
theorem settleAux_sound (counts : Nat → Nat) (settleMs timeoutMs : Nat)
    (hmono : ∀ a b : Nat, a ≤ b → counts a ≤ counts b) :
    ∀ (fuel t lc lch : Nat),
      timeoutMs ≤ t + fuel * 100 →
      lch ≤ t → lc = counts t → counts lch = counts t → 100 ∣ lch → 100 ∣ t →
      ∃ T b, settleAux counts settleMs timeoutMs fuel t lc lch = some (T, b) ∧
        (b = true →
          settleMs + lch ≤ T ∧
          (∀ u, T - settleMs ≤ u → u ≤ T → counts u = counts T) ∧
          (∀ u, 100 ∣ u → u ≤ T → counts (u - 100) < counts u → u + settleMs ≤ T)) ∧
        (b = false → timeoutMs ≤ T) := by
  intro fuel
  induction fuel with
  | zero =>
    intro t lc lch hf hlch hlc hcl hd1 hd2
    have ht : ¬ t < timeoutMs := by omega
    refine ⟨t, false, ?_, ?_, ?_⟩
    · simp [settleAux, ht]
    · intro h; cases h
    · intro _; omega
  | succ n ih =>
    intro t lc lch hf hlch hlc hcl hd1 hd2
    by_cases ht : t < timeoutMs
    · by_cases hinc : lc < counts (t + 100)
      · by_cases hret : settleMs ≤ (t + 100) - (t + 100)
        · -- settles immediately after the increase: settleMs = 0
          have hs0 : settleMs = 0 := by omega
          refine ⟨t + 100, true, ?_, ?_, ?_⟩
          · simp [settleAux, ht, hinc, hret, hs0]
          · intro _
            refine ⟨by omega, ?_, ?_⟩
            · intro u hu1 hu2
              have : u = t + 100 := by omega
              rw [this]
            · intro u _ hu2 _
              omega
          · intro h; cases h
        · -- recurse from the freshly reset state (t+100, counts (t+100), t+100)
          obtain ⟨T, b, heq, hT, hF⟩ := ih (t + 100) (counts (t + 100)) (t + 100)
            (by omega) (le_refl _) rfl rfl (by omega) (by omega)
          have hsne : ¬ settleMs = 0 := by omega
          refine ⟨T, b, ?_, ?_, hF⟩
          · simp [settleAux, ht, hinc, hret, heq, hsne]
          · intro hb
            obtain ⟨h1, h2, h3⟩ := hT hb
            exact ⟨by omega, h2, h3⟩
      · -- no growth observed this poll: the count is flat since lastChange
        have hflat : counts (t + 100) = counts t := by
          have h1 : counts t ≤ counts (t + 100) := hmono t (t + 100) (by omega)
          omega
        by_cases hret : settleMs ≤ (t + 100) - lch
        · refine ⟨t + 100, true, ?_, ?_, ?_⟩
          · simp [settleAux, ht, hinc, hret]
          · intro _
            have hwin : ∀ v, lch ≤ v → v ≤ t + 100 → counts v = counts (t + 100) := by
              intro v hv1 hv2
              have ha : counts v ≤ counts (t + 100) := hmono v (t + 100) hv2
              have hb2 : counts lch ≤ counts v := hmono lch v hv1
              omega
            refine ⟨by omega, ?_, ?_⟩
            · intro u hu1 hu2
              exact hwin u (by omega) hu2
            · intro u hu0 hu2 hu3
              -- an increase at a poll time u ≤ T must predate lastChange
              have hule : u ≤ lch := by
                by_contra hgt
                push_neg at hgt
                have h100 : lch + 100 ≤ u := by
                  obtain ⟨a, ha⟩ := hu0
                  obtain ⟨c, hc⟩ := hd1
                  omega
                have e1 : counts (u - 100) = counts (t + 100) :=
                  hwin (u - 100) (by omega) (by omega)
                have e2 : counts u = counts (t + 100) := hwin u (by omega) hu2
                omega
              omega
          · intro h; cases h
        · obtain ⟨T, b, heq, hT, hF⟩ := ih (t + 100) lc lch
            (by omega) (by omega) (by omega) (by omega) hd1 (by omega)
          refine ⟨T, b, ?_, hT, hF⟩
          simp [settleAux, ht, hinc, hret, heq]
    · refine ⟨t, false, ?_, ?_, ?_⟩
      · simp [settleAux, ht]
      · intro h; cases h
      · intro _; omega

/-- `lastFishResponseTime` after one cycle: stamped with the
post-settle clock exactly when the cycle's action was `fish`, untouched
otherwise — on every control path, including thrown errors. -/
theorem step_lastFish (cfg : Config) (s : LoopState) (env : CycleEnv) :
    (step cfg s env).state.lastFishResponseTime =
      if s.nextAction = "fish" then env.responseTime else s.lastFishResponseTime := by
  by_cases hf : s.nextAction = "fish"
  · simp only [step, hf, if_pos, executeAction]
    rcases hdet : detectCaptcha env.tl with _ | c
    · simp [hdet]
    · rcases c with ⟨ans, fm⟩ | fm <;> simp [hdet, handleCaptcha]
  · simp only [step, hf, if_neg, ite_false]
    rcases hex : executeAction cfg.baitType s.nextAction with e | cmd
    · simp
    · rcases hdet : detectCaptcha env.tl with _ | c
      · simp [hdet]
      · rcases c with ⟨ans, fm⟩ | fm <;> simp [hdet, handleCaptcha]

/-- The cooldown sleep of one cycle: the gate runs exactly when the
pending action is `fish`, on every control path. -/
theorem step_cooldownWait (cfg : Config) (s : LoopState) (env : CycleEnv) :
    (step cfg s env).cooldownWait =
      if s.nextAction = "fish"
        then waitForCooldown s.lastFishResponseTime env.cooldownNow cfg.cooldownMs
        else 0 := by
  simp only [step]
  rcases hex : executeAction cfg.baitType s.nextAction with e | cmd
  · simp
  · rcases hdet : detectCaptcha env.tl with _ | c
    · simp [hdet]
    · rcases c with ⟨ans, fm⟩ | fm <;> simp [hdet, handleCaptcha]

/-- A cycle whose pending action is one of the three enumerated ones can
only fail with the image-captcha error, and hands the next cycle a
pending action that is again one of the three. -/
theorem step_cases (cfg : Config) (s : LoopState) (env : CycleEnv)
    (h : s.nextAction = "fish" ∨ s.nextAction = "sell" ∨ s.nextAction = "buy") :
    ((step cfg s env).err = none ∨ (step cfg s env).err = some imageCaptchaError) ∧
      ((step cfg s env).err = none →
        ((step cfg s env).state.nextAction = "fish" ∨
         (step cfg s env).state.nextAction = "sell" ∨
         (step cfg s env).state.nextAction = "buy")) := by
  have hex : ∃ cmd, executeAction cfg.baitType s.nextAction = Except.ok cmd := by
    rcases h with h | h | h <;> rw [h] <;> exact ⟨_, rfl⟩
  obtain ⟨cmd, hcmd⟩ := hex
  simp only [step, hcmd]
  rcases hdet : detectCaptcha env.tl with _ | c
  · simp [hdet, determineNextAction_mem]
  · rcases c with ⟨ans, fm⟩ | fm <;> simp [hdet, handleCaptcha, determineNextAction_mem]

/-- Over any run, starting from an enumerated pending action the loop can
only stop cleanly or with the image-captcha error: the `Unknown action`
branch of `executeAction` is unreachable. -/
theorem runLoop_err (cfg : Config) (envs : List CycleEnv) :
    ∀ s : LoopState,
      (s.nextAction = "fish" ∨ s.nextAction = "sell" ∨ s.nextAction = "buy") →
      ((runLoop cfg envs s).2.2 = none ∨ (runLoop cfg envs s).2.2 = some imageCaptchaError) := by
  induction envs with
  | nil => intro s _; left; rfl
  | cons env rest ih =>
    intro s hs
    obtain ⟨herr, hnext⟩ := step_cases cfg s env hs
    simp only [runLoop]
    by_cases hrun : s.running
    · simp only [hrun, if_true]
      rcases herr with he | he
      · simp only [he]
        exact ih (step cfg s env).state (hnext he)
      · simp [he]
    · simp [hrun]

/-! ## Claims -/

/-- C1: classification of the most recent entry follows the priority
order and mapping — a depletion phrase yields `sell` (Liquidate), else a
liquidation confirmation yields `buy` (Replenish), else either
replenishment-confirmation surface form yields `fish` (Primary), else
the normal-result default is `fish`; the classifier is total (never
throws), always lands in the three-action set, and only the most recent
entry matters, regardless of earlier entries and of the busy-wait poll
budget. -/
theorem classify_priority_order (tl : Timeline) (fuel : Nat) :
    determineNextAction (getLastMessage fuel tl) =
      (if containsSub "you ran out of" (lowerStr (lastMsgOf tl)) then "sell"
       else if containsSub "you sold" (lowerStr (lastMsgOf tl)) then "buy"
       else if containsSub "you bought" (lowerStr (lastMsgOf tl))
              || containsSub "bait purchase" (lowerStr (lastMsgOf tl)) then "fish"
       else "fish") ∧
    (determineNextAction (getLastMessage fuel tl) = "fish" ∨
     determineNextAction (getLastMessage fuel tl) = "sell" ∨
     determineNextAction (getLastMessage fuel tl) = "buy") := by
  rw [getLastMessage_eq]
  exact ⟨rfl, determineNextAction_mem _⟩

/-- C2 (counterexample): on a codeless anti-bot entry the loop does
terminate with the fatal image-captcha error and issues no further
commands, but `running` stays `true` — refuting the claim that `running`
becomes `false`. -/
theorem codeless_captcha_running_counterexample :
    (runLoop ⟨3500, "worms"⟩
        [⟨[some "Anti-bot verification required"], 0, 500⟩,
         ⟨[some "You caught a fish"], 600, 900⟩] initialState).1.running = true ∧
    (runLoop ⟨3500, "worms"⟩
        [⟨[some "Anti-bot verification required"], 0, 500⟩,
         ⟨[some "You caught a fish"], 600, 900⟩] initialState).2.2 = some imageCaptchaError ∧
    (runLoop ⟨3500, "worms"⟩
        [⟨[some "Anti-bot verification required"], 0, 500⟩,
         ⟨[some "You caught a fish"], 600, 900⟩] initialState).2.1 = [Sent.simple "/fish"] ∧
    (true : Bool) ≠ false :=
  ⟨rfl, rfl, rfl, by decide⟩

/-- C2 (amended): when challenge detection on the cycle's entries yields
an image (codeless) captcha, the loop terminates at that cycle with the
fatal, non-retried image-captcha error; only that cycle's own action
command was issued and nothing after it; and `running` keeps its value
`true` — it is set to `false` only by an explicit `stop`, never by the
failure path. -/
theorem codeless_captcha_fatal (cfg : Config) (s : LoopState) (env : CycleEnv)
    (rest : List CycleEnv) (fm : String)
    (hrun : s.running = true)
    (hact : s.nextAction = "fish" ∨ s.nextAction = "sell" ∨ s.nextAction = "buy")
    (hdet : detectCaptcha env.tl = some (Captcha.image fm)) :
    ∃ c s2, runLoop cfg (env :: rest) s = (s2, [c], some imageCaptchaError) ∧
      s2.running = true ∧ s2.nextAction = s.nextAction := by
  obtain ⟨cmd, hcmd⟩ : ∃ cmd, executeAction cfg.baitType s.nextAction = Except.ok cmd := by
    rcases hact with h | h | h <;> rw [h] <;> exact ⟨_, rfl⟩
  have h1 : (step cfg s env).err = some imageCaptchaError := by
    simp [step, hcmd, hdet, handleCaptcha]
  have h2 : (step cfg s env).cmds = [cmd] := by
    simp [step, hcmd, hdet, handleCaptcha]
  have h3 : (step cfg s env).state.running = s.running := by
    simp only [step, hcmd, hdet, handleCaptcha]
    split <;> rfl
  have h4 : (step cfg s env).state.nextAction = s.nextAction := by
    simp only [step, hcmd, hdet, handleCaptcha]
    split <;> rfl
  refine ⟨cmd, (step cfg s env).state, ?_, by rw [h3, hrun], h4⟩
  simp only [runLoop, hrun, if_true, h1, h2]

/-- C2 witness: the amended behavior at a concrete codeless-challenge
cycle. -/
theorem codeless_captcha_fatal_witness :
    ∃ c s2, runLoop ⟨3500, "worms"⟩
        [⟨[some "Anti-bot verification required"], 0, 500⟩] initialState =
        (s2, [c], some imageCaptchaError) ∧
      s2.running = true ∧ s2.nextAction = initialState.nextAction :=
  codeless_captcha_fatal ⟨3500, "worms"⟩ initialState
    ⟨[some "Anti-bot verification required"], 0, 500⟩ [] "Anti-bot verification required"
    rfl (Or.inl rfl) rfl

/-- C3: challenge detection scans the 2 most recent entries for the
marker; on the first marker entry, an extractable `Code:` token yields a
text challenge carrying exactly that code, no token yields an image
challenge, and with no marker in the last 2 entries it yields none.
Concretely, `Code: AB12` gives solution code `AB12`. -/
theorem detect_challenge_spec (tl : Timeline) :
    ((detectCaptcha tl = none) ↔
      (∀ x ∈ getLastMessages 2 tl, ¬ (containsSub "anti-bot" (lowerStr x) = true))) ∧
    (∀ m, (getLastMessages 2 tl).find? (fun x => containsSub "anti-bot" (lowerStr x)) = some m →
      detectCaptcha tl =
        (match codeMatch m.data with
         | some code => some (Captcha.text code m)
         | none => some (Captcha.image m))) ∧
    detectCaptcha [some "Anti-bot verification. Code: AB12"] =
      some (Captcha.text "AB12" "Anti-bot verification. Code: AB12") ∧
    detectCaptcha [some "Anti-bot verification required"] =
      some (Captcha.image "Anti-bot verification required") := by
  refine ⟨⟨?_, ?_⟩, ?_, rfl, rfl⟩
  · intro h
    rcases hf : (getLastMessages 2 tl).find? (fun x => containsSub "anti-bot" (lowerStr x))
      with _ | m
    · exact List.find?_eq_none.mp hf
    · exfalso
      simp only [detectCaptcha, hf] at h
      rcases hc : codeMatch m.data with _ | code <;> simp [hc] at h
  · intro h
    have hf : (getLastMessages 2 tl).find? (fun x => containsSub "anti-bot" (lowerStr x)) = none :=
      List.find?_eq_none.mpr h
    simp [detectCaptcha, hf]
  · intro m hm
    simp [detectCaptcha, hm]

/-- C3 witness: the marker in the next-to-last slot with a code is
detected and characterized by the extraction. -/
theorem detect_challenge_spec_witness :
    detectCaptcha [some "x", some "Anti-bot thing Code: Q7W2"] =
      (match codeMatch ("Anti-bot thing Code: Q7W2".data) with
       | some code => some (Captcha.text code "Anti-bot thing Code: Q7W2")
       | none => some (Captcha.image "Anti-bot thing Code: Q7W2")) :=
  (detect_challenge_spec [some "x", some "Anti-bot thing Code: Q7W2"]).2.1
    "Anti-bot thing Code: Q7W2" rfl

/-- C4: for a monotone entry count starting at the recorded
`previousCount`, the settle detector (given enough fuel to cover the
hard timeout) always returns; a settled return at time `T` comes no
earlier than `settleMs` and certifies zero growth over the entire
trailing window `[T - settleMs, T]` — so any observed increase at a poll
time, however early, postpones the settled return to at least `settleMs`
after it; and a timeout return happens only once `timeoutMs` has
elapsed, yielding a value rather than an error. -/
theorem settle_detector_sound (counts : Nat → Nat)
    (previousCount settleMs timeoutMs fuel : Nat)
    (hmono : ∀ a b : Nat, a ≤ b → counts a ≤ counts b)
    (h0 : counts 0 = previousCount)
    (hfuel : timeoutMs ≤ fuel * 100) :
    ∃ T b, waitForMessagesSettled counts previousCount settleMs timeoutMs fuel = some (T, b) ∧
      (b = true →
        settleMs ≤ T ∧
        (∀ u, T - settleMs ≤ u → u ≤ T → counts u = counts T) ∧
        (∀ u, 100 ∣ u → u ≤ T → counts (u - 100) < counts u → u + settleMs ≤ T)) ∧
      (b = false → timeoutMs ≤ T) := by
  obtain ⟨T, b, heq, hT, hF⟩ :=
    settleAux_sound counts settleMs timeoutMs hmono fuel 0 previousCount 0
      (by omega) (le_refl 0) h0.symm rfl (Dvd.intro 0 rfl) (Dvd.intro 0 rfl)
  refine ⟨T, b, heq, ?_, hF⟩
  intro hb
  obtain ⟨a1, a2, a3⟩ := hT hb
  exact ⟨by omega, a2, a3⟩

/-- C4 witness: a quiet timeline settles at exactly the settle window. -/
theorem settle_detector_sound_witness :
    ∃ T b, waitForMessagesSettled (fun _ => 0) 0 300 5000 50 = some (T, b) ∧
      (b = true →
        300 ≤ T ∧
        (∀ u, T - 300 ≤ u → u ≤ T → (fun _ => 0 : Nat → Nat) u = (fun _ => 0 : Nat → Nat) T) ∧
        (∀ u, 100 ∣ u → u ≤ T →
          (fun _ => 0 : Nat → Nat) (u - 100) < (fun _ => 0 : Nat → Nat) u → u + 300 ≤ T)) ∧
      (b = false → 5000 ≤ T) :=
  settle_detector_sound (fun _ => 0) 0 300 5000 50 (fun _ _ _ => le_refl 0) rfl (by omega)

/-- C5: the cooldown gate is a no-op when `lastFishResponseTime` holds
the unset sentinel; otherwise, when the remainder
`cooldownMs - (now - last)` is positive the gate sleeps exactly that
remainder; and within a cycle the gate runs only before a `fish` action —
`sell` and `buy` cycles sleep 0 on the gate. -/
theorem cooldown_gate_spec (now cms last : Nat) (cfg : Config) (s : LoopState) (env : CycleEnv)
    (h1 : last ≠ 0)
    (h2 : 0 < (cms : Int) - ((now : Int) - (last : Int)))
    (h3 : s.nextAction ≠ "fish") :
    waitForCooldown 0 now cms = 0 ∧
    ((waitForCooldown last now cms : Int) = (cms : Int) - ((now : Int) - (last : Int))) ∧
    (step cfg s env).cooldownWait = 0 ∧
    ((step cfg s env).cooldownWait =
      if s.nextAction = "fish"
        then waitForCooldown s.lastFishResponseTime env.cooldownNow cfg.cooldownMs
        else 0) := by
  refine ⟨?_, ?_, ?_, step_cooldownWait cfg s env⟩
  · simp [waitForCooldown]
  · simp only [waitForCooldown, if_neg h1, if_pos h2]
    exact Int.toNat_of_nonneg (le_of_lt h2)
  · rw [step_cooldownWait]
    exact if_neg h3

/-- C5 witness: a `sell` cycle sleeps 0 on the gate while a fish cycle
1000 ms after the last response with a 3500 ms cooldown would sleep
2500 ms. -/
theorem cooldown_gate_spec_witness :
    waitForCooldown 0 2000 3500 = 0 ∧
    ((waitForCooldown 1000 2000 3500 : Int) = (3500 : Int) - ((2000 : Int) - (1000 : Int))) ∧
    (step ⟨3500, "worms"⟩ ⟨true, 0, "sell"⟩ ⟨[some "You sold all"], 0, 999⟩).cooldownWait = 0 ∧
    ((step ⟨3500, "worms"⟩ ⟨true, 0, "sell"⟩ ⟨[some "You sold all"], 0, 999⟩).cooldownWait =
      if (⟨true, 0, "sell"⟩ : LoopState).nextAction = "fish"
        then waitForCooldown 0 0 3500
        else 0) :=
  cooldown_gate_spec 2000 3500 1000 ⟨3500, "worms"⟩ ⟨true, 0, "sell"⟩
    ⟨[some "You sold all"], 0, 999⟩ (by decide) (by decide) (by decide)

/-- C6 (counterexample): a depletion phrase sitting in the next-to-last
entry is not classified — the classifier returns `fish`, not `sell`,
because it reads only the single most recent entry. -/
theorem classifier_scan_two_counterexample :
    determineNextAction (getLastMessage 30
        [some "You ran out of worms and cannot fish anymore.", some "Nice weather today"]) =
      "fish" ∧
    ("fish" : String) ≠ "sell" := by
  rw [getLastMessage_eq]
  exact ⟨rfl, by decide⟩

/-- C6 (amended): only challenge detection scans the 2 most recent
entries (a marker in the next-to-last entry is still detected); the
outcome classifier reads only the single most recent entry — its result
over the busy-wait equals its result on the last entry alone. -/
theorem classifier_scan_amended (tl : Timeline) (fuel : Nat) (m1 m2 : String)
    (h : containsSub "anti-bot" (lowerStr m1) = true) :
    determineNextAction (getLastMessage fuel tl) = determineNextAction (lastMsgOf tl) ∧
      (detectCaptcha [some m1, some m2]).isSome = true := by
  refine ⟨by rw [getLastMessage_eq], ?_⟩
  have hms : getLastMessages 2 [some m1, some m2] = [m1, m2] := rfl
  have hfind : List.find? (fun x => containsSub "anti-bot" (lowerStr x)) [m1, m2] = some m1 := by
    simp only [List.find?]
    rw [h]
  simp only [detectCaptcha, hms, hfind]
  rcases hc : codeMatch m1.data with _ | code <;> simp [hc]

/-- C6 witness: amended behavior at concrete entries. -/
theorem classifier_scan_amended_witness :
    determineNextAction (getLastMessage 2 [some "You caught a fish and it is big"]) =
        determineNextAction (lastMsgOf [some "You caught a fish and it is big"]) ∧
      (detectCaptcha [some "Anti-bot check", some "ok"]).isSome = true :=
  classifier_scan_amended [some "You caught a fish and it is big"] 2
    "Anti-bot check" "ok" (by decide)

/-- C7: the next-action computation always lands in the three enumerated
actions for every possible last-message text, action execution succeeds
on its result, and consequently a loop started from an enumerated
pending action can never die on the `Unknown action` branch — its only
possible error is the image-captcha one. -/
theorem pending_action_invariant (bait msg : String) (cfg : Config)
    (envs : List CycleEnv) (s : LoopState)
    (h : s.nextAction = "fish" ∨ s.nextAction = "sell" ∨ s.nextAction = "buy") :
    (determineNextAction msg = "fish" ∨ determineNextAction msg = "sell" ∨
      determineNextAction msg = "buy") ∧
    (∃ c, executeAction bait (determineNextAction msg) = Except.ok c) ∧
    ((runLoop cfg envs s).2.2 = none ∨ (runLoop cfg envs s).2.2 = some imageCaptchaError) := by
  refine ⟨determineNextAction_mem msg, ?_, runLoop_err cfg envs s h⟩
  rcases determineNextAction_mem msg with h1 | h1 | h1 <;> rw [h1] <;> exact ⟨_, rfl⟩

/-- C7 witness: invariant at a concrete state and message. -/
theorem pending_action_invariant_witness :
    (determineNextAction "You caught a fish" = "fish" ∨
      determineNextAction "You caught a fish" = "sell" ∨
      determineNextAction "You caught a fish" = "buy") ∧
    (∃ c, executeAction "worms" (determineNextAction "You caught a fish") = Except.ok c) ∧
    ((runLoop ⟨3500, "worms"⟩ [⟨[some "You caught a fish"], 0, 100⟩] initialState).2.2 = none ∨
     (runLoop ⟨3500, "worms"⟩ [⟨[some "You caught a fish"], 0, 100⟩] initialState).2.2 =
       some imageCaptchaError) :=
  pending_action_invariant "worms" "You caught a fish" ⟨3500, "worms"⟩
    [⟨[some "You caught a fish"], 0, 100⟩] initialState (Or.inl rfl)

/-- C8: `lastFishResponseTime` is stamped with the post-settle clock
exactly in cycles whose action was `fish`, and cycles executing `sell`
or `buy` (or any non-fish action) leave it unchanged, on every control
path of the cycle. -/
theorem last_fish_time_frame (cfg : Config) (s : LoopState) (env : CycleEnv) :
    ((step cfg s env).state.lastFishResponseTime =
      if s.nextAction = "fish" then env.responseTime else s.lastFishResponseTime) ∧
    (s.nextAction ≠ "fish" →
      (step cfg s env).state.lastFishResponseTime = s.lastFishResponseTime) := by
  refine ⟨step_lastFish cfg s env, ?_⟩
  intro h
  rw [step_lastFish]
  exact if_neg h

/-- C8 witness: a `sell` cycle leaves the stamp at its old value. -/
theorem last_fish_time_frame_witness :
    (step ⟨3500, "worms"⟩ ⟨true, 42, "sell"⟩
      ⟨[some "You sold all"], 0, 999⟩).state.lastFishResponseTime = 42 :=
  (last_fish_time_frame ⟨3500, "worms"⟩ ⟨true, 42, "sell"⟩
    ⟨[some "You sold all"], 0, 999⟩).2 (by decide)

/-- C9: challenge detection is a pure function of the observed entries —
any two timelines whose last-2 reads agree (in particular the same
timeline re-scanned) produce identical detection results: same text
challenge with the same code, same image challenge, or none both
times. -/
theorem detect_captcha_pure (tl1 tl2 : Timeline)
    (h : getLastMessages 2 tl1 = getLastMessages 2 tl2) :
    detectCaptcha tl1 = detectCaptcha tl2 := by
  simp only [detectCaptcha, h]

/-- C9 witness: two timelines with the same last-2 reads detect alike. -/
theorem detect_captcha_pure_witness :
    detectCaptcha [some "b", some "x", some "Anti-bot Code: Z9"] =
      detectCaptcha [some "x", some "Anti-bot Code: Z9"] :=
  detect_captcha_pure [some "b", some "x", some "Anti-bot Code: Z9"]
    [some "x", some "Anti-bot Code: Z9"] rfl

/-- C10: on an empty or fully unreadable timeline — every entry read
fails — the pipeline is total: the last-message reads all yield the
empty string without throwing, challenge detection yields none, and the
next-action computation returns `fish`. -/
theorem pipeline_total_on_unreadable (tl : Timeline) (fuel n : Nat)
    (h : ∀ e ∈ tl, e = none) :
    (∀ m ∈ getLastMessages n tl, m = "") ∧
    detectCaptcha tl = none ∧
    determineNextAction (getLastMessage fuel tl) = "fish" := by
  have hall : ∀ (k : Nat) (m : String), m ∈ getLastMessages k tl → m = "" := by
    intro k m hm
    simp only [getLastMessages, List.mem_map] at hm
    obtain ⟨e, he, rfl⟩ := hm
    rw [h e (List.mem_of_mem_drop he)]
    rfl
  refine ⟨hall n, ?_, ?_⟩
  · have hf : (getLastMessages 2 tl).find? (fun x => containsSub "anti-bot" (lowerStr x)) = none := by
      rw [List.find?_eq_none]
      intro x hx
      rw [hall 2 x hx]
      decide
    simp [detectCaptcha, hf]
  · rw [getLastMessage_eq]
    show determineNextAction ((getLastMessages 1 tl).headD "") = "fish"
    rcases hg : getLastMessages 1 tl with _ | ⟨m, ms⟩
    · rfl
    · have hm : m = "" := hall 1 m (hg ▸ List.mem_cons_self m ms)
      simp only [List.headD_cons, hm]
      rfl

/-- C10 witness: a two-entry timeline whose reads both fail. -/
theorem pipeline_total_on_unreadable_witness :
    (∀ m ∈ getLastMessages 2 ([none, none] : Timeline), m = "") ∧
    detectCaptcha ([none, none] : Timeline) = none ∧
    determineNextAction (getLastMessage 3 ([none, none] : Timeline)) = "fish" :=
  pipeline_total_on_unreadable [none, none] 3 2 (by decide)

end Fisher
